import Mathlib

/-!
Verification of the fezwd-backend status-ingestion service.

The repository contains two variants of the backend:
* `src/server.js` — the "retention-bounded" variant: snapshot-based status
  storage, change-fingerprint logging, and a 200-entry log retention bound
  enforced on every append (`addLog`).
* `src/unnamed/part_000` — the table-based variant: status upsert into a
  `statuses` table, an unconditional log insert on every ingest, a finer
  auth-error taxonomy (`bad_ts` vs `ts_skew`), and the ack endpoint.

Below, definitions suffixed `JS` embed `src/server.js` and definitions
suffixed `P0` embed `src/unnamed/part_000`.  Machine integers are modelled
as `Nat`/`Int` (32-bit words in SHA-256 are `Nat` reduced mod 2^32); bytes
are `Nat` values below 256; fallible handlers return `Except`.
-/


/-! ### Bytes, hex, UTF-8 -/

/-- UTF-8 encoding of a single Unicode code point (as in Node's
`Buffer.from(string, "utf8")`, which the servers use on the raw body). -/
def utf8Char (n : Nat) : List Nat :=
  if n < 128 then [n]
  else if n < 2048 then [192 + n / 64, 128 + n % 64]
  else if n < 65536 then [224 + n / 4096, 128 + n / 64 % 64, 128 + n % 64]
  else [240 + n / 262144, 128 + n / 4096 % 64, 128 + n / 64 % 64, 128 + n % 64]

/-- UTF-8 bytes of a string. -/
def strBytes (s : String) : List Nat :=
  (s.data.map (fun c => utf8Char c.toNat)).flatten

/-- Lowercase hex digit for a value below 16 (Node `digest("hex")` emits
lowercase). -/
def hexDigit (n : Nat) : Char :=
  Char.ofNat (if n < 10 then 48 + n else 87 + n)

/-- Lowercase hex string of a byte list, two digits per byte — the shape of
`crypto.createHmac(...).digest("hex")`. -/
def hexOfBytes (bs : List Nat) : String :=
  String.mk ((bs.map (fun b => [hexDigit (b / 16), hexDigit (b % 16)])).flatten)

/-- Value of a single hex digit character, accepting both cases, as Node's
hex decoder does. -/
def hexVal? (c : Char) : Option Nat :=
  if '0' ≤ c ∧ c ≤ '9' then some (c.toNat - 48)
  else if 'a' ≤ c ∧ c ≤ 'f' then some (c.toNat - 87)
  else if 'A' ≤ c ∧ c ≤ 'F' then some (c.toNat - 55)
  else none

/-- Node's `Buffer.from(string, "hex")`: decodes pairs of hex digits and,
per the Buffer documentation, truncates at the first non-hexadecimal
character or odd-length boundary instead of throwing. -/
def bufferFromHex : List Char → List Nat
  | c1 :: c2 :: rest =>
    match hexVal? c1, hexVal? c2 with
    | some hi, some lo => (16 * hi + lo) :: bufferFromHex rest
    | _, _ => []
  | _ => []

/-! ### SHA-256 and HMAC-SHA256

The servers call Node's `crypto.createHmac("sha256", secret)`; the
algorithm itself is external library code, embedded here as the standard
FIPS 180-4 SHA-256 over byte lists with 32-bit words as `Nat` mod 2^32. -/

def w32 (n : Nat) : Nat := n % 4294967296

def add32 (a b : Nat) : Nat := w32 (a + b)

def rotr32 (x n : Nat) : Nat := (x >>> n) ||| w32 (x <<< (32 - n))

def bigSigma0 (x : Nat) : Nat := rotr32 x 2 ^^^ rotr32 x 13 ^^^ rotr32 x 22

def bigSigma1 (x : Nat) : Nat := rotr32 x 6 ^^^ rotr32 x 11 ^^^ rotr32 x 25

def smallSigma0 (x : Nat) : Nat := rotr32 x 7 ^^^ rotr32 x 18 ^^^ (x >>> 3)

def smallSigma1 (x : Nat) : Nat := rotr32 x 17 ^^^ rotr32 x 19 ^^^ (x >>> 10)

def chF (x y z : Nat) : Nat := (x &&& y) ^^^ ((x ^^^ 4294967295) &&& z)

def majF (x y z : Nat) : Nat := (x &&& y) ^^^ (x &&& z) ^^^ (y &&& z)

/-- The 64 SHA-256 round constants (FIPS 180-4, written in decimal). -/
def sha256K : List Nat :=
  [1116352408, 1899447441, 3049323471, 3921009573, 961987163, 1508970993,
   2453635748, 2870763221, 3624381080, 310598401, 607225278, 1426881987,
   1925078388, 2162078206, 2614888103, 3248222580, 3835390401, 4022224774,
   264347078, 604807628, 770255983, 1249150122, 1555081692, 1996064986,
   2554220882, 2821834349, 2952996808, 3210313671, 3336571891, 3584528711,
   113926993, 338241895, 666307205, 773529912, 1294757372, 1396182291,
   1695183700, 1986661051, 2177026350, 2456956037, 2730485921, 2820302411,
   3259730800, 3345764771, 3516065817, 3600352804, 4094571909, 275423344,
   430227734, 506948616, 659060556, 883997877, 958139571, 1322822218,
   1537002063, 1747873779, 1955562222, 2024104815, 2227730452, 2361852424,
   2428436474, 2756734187, 3204031479, 3329325298]

/-- The initial SHA-256 hash value (FIPS 180-4, written in decimal). -/
def sha256H0 : List Nat :=
  [1779033703, 3144134277, 1013904242, 2773480762,
   1359893119, 2600822924, 528734635, 1541459225]

/-- Big-endian 8-byte encoding of the message bit length. -/
def lenBytes64 (n : Nat) : List Nat :=
  [n / 72057594037927936 % 256, n / 281474976710656 % 256,
   n / 1099511627776 % 256, n / 4294967296 % 256,
   n / 16777216 % 256, n / 65536 % 256, n / 256 % 256, n % 256]

/-- SHA-256 padding: append 0x80, zeros to 56 mod 64, then the 64-bit
big-endian bit length. -/
def padMsg (msg : List Nat) : List Nat :=
  msg ++ [128] ++ List.replicate ((119 - msg.length % 64) % 64) 0
      ++ lenBytes64 (8 * msg.length)

/-- Group bytes into big-endian 32-bit words. -/
def bytesToWords : List Nat → List Nat
  | a :: b :: c :: d :: rest => (((a * 256 + b) * 256 + c) * 256 + d) :: bytesToWords rest
  | _ => []

/-- Split a byte list into 64-byte blocks (fuel-based so that the kernel
can evaluate it). -/
def chunks64Aux : Nat → List Nat → List (List Nat)
  | 0, _ => []
  | _, [] => []
  | fuel + 1, l => l.take 64 :: chunks64Aux fuel (l.drop 64)

def chunks64 (l : List Nat) : List (List Nat) := chunks64Aux l.length l

/-- One step of the message-schedule extension; the schedule is kept in
reverse order (most recent word first). -/
def schedStep (rev : List Nat) : List Nat :=
  add32 (add32 (smallSigma1 (rev.getD 1 0)) (rev.getD 6 0))
        (add32 (smallSigma0 (rev.getD 14 0)) (rev.getD 15 0)) :: rev

/-- The full 64-word message schedule from the 16 block words. -/
def schedule (w16 : List Nat) : List Nat :=
  ((List.range 48).foldl (fun acc _ => schedStep acc) w16.reverse).reverse

/-- One SHA-256 round: state is the 8-word list `[a,b,c,d,e,f,g,h]`. -/
def compressStep (st : List Nat) (kw : Nat × Nat) : List Nat :=
  let a := st.getD 0 0
  let b := st.getD 1 0
  let c := st.getD 2 0
  let d := st.getD 3 0
  let e := st.getD 4 0
  let f := st.getD 5 0
  let g := st.getD 6 0
  let h := st.getD 7 0
  let t1 := add32 (add32 (add32 h (bigSigma1 e)) (add32 (chF e f g) kw.1)) kw.2
  let t2 := add32 (bigSigma0 a) (majF a b c)
  [add32 t1 t2, a, b, c, add32 d t1, e, f, g]

/-- Compress one 64-byte block into the running hash. -/
def compressBlock (h : List Nat) (block : List Nat) : List Nat :=
  let st := (sha256K.zip (schedule (bytesToWords block))).foldl compressStep h
  (h.zip st).map (fun p => add32 p.1 p.2)

/-- Big-endian bytes of one 32-bit word. -/
def word32Bytes (n : Nat) : List Nat :=
  [n / 16777216 % 256, n / 65536 % 256, n / 256 % 256, n % 256]

/-- SHA-256 of a byte list, as 32 bytes. -/
def sha256 (msg : List Nat) : List Nat :=
  (((chunks64 (padMsg msg)).foldl compressBlock sha256H0).map word32Bytes).flatten

/-- HMAC-SHA256 over byte lists (RFC 2104, block size 64). -/
def hmacSha256 (key msg : List Nat) : List Nat :=
  let k0 := if key.length > 64 then sha256 key else key
  let kp := k0 ++ List.replicate (64 - k0.length) 0
  sha256 ((kp.map (fun b => b ^^^ 92)) ++ sha256 ((kp.map (fun b => b ^^^ 54)) ++ msg))

/-- `crypto.createHmac("sha256", secret).update(payload).digest("hex")`. -/
def hmacHex (secret msg : String) : String :=
  hexOfBytes (hmacSha256 (strBytes secret) (strBytes msg))

/-! ### JavaScript value semantics used by the handlers -/

/-- `component.toLowerCase()`: per-character lowercasing (the component
names exercised here are ASCII). -/
def toLowerJS (s : String) : String :=
  String.mk (s.data.map Char.toLower)

/-- JS truthiness of an optional string field (`undefined`/`null`/`""` are
falsy). -/
def truthyS : Option String → Bool
  | none => false
  | some s => !(s == "")

/-- `Number(updatedAt) || Date.now()` (also `updatedAt || Date.now()`):
an absent or NaN value is `none`, and a supplied `0` is falsy, so both fall
back to the current time. -/
def numOrJS (v : Option Int) (now : Int) : Int :=
  match v with
  | some n => if n == 0 then now else n
  | none => now

/-- Characters trimmed by `Number(...)` before parsing (the ASCII-space
fragment of the JS WhiteSpace production exercised here). -/
def isWsJS (c : Char) : Bool :=
  c == ' ' || c == '\t' || c == '\n' || c == '\r'

def trimJS (s : String) : String :=
  String.mk (((s.data.dropWhile isWsJS).reverse.dropWhile isWsJS).reverse)

/-- Accumulate a decimal digit run; `none` on any non-digit. -/
def decDigits? : List Char → Nat → Option Nat
  | [], acc => some acc
  | c :: rest, acc =>
    if c.isDigit then decDigits? rest (acc * 10 + (c.toNat - 48)) else none

/-- Models JavaScript `Number(s)` restricted to the optionally-signed
decimal-integer fragment the timestamp header uses: `some n` when the
trimmed string is such an integer (the empty string is `0` in JS),
`none` when the result would be `NaN` or infinite — exactly the values
`Number.isFinite` rejects. -/
def jsNumber? (s : String) : Option Int :=
  match (trimJS s).data with
  | [] => some 0
  | '-' :: rest =>
    if rest.isEmpty then none else (decDigits? rest 0).map (fun n => -(n : Int))
  | '+' :: rest =>
    if rest.isEmpty then none else (decDigits? rest 0).map (fun n => (n : Int))
  | cs => (decDigits? cs 0).map (fun n => (n : Int))

/-! ### Data model -/

/-- A row of the `logs` table (`id` is the store-generated key: a UUID in
the source, modelled as a `Nat`). -/
structure LogEntry where
  id : Nat
  timestamp : Int
  type : String
  component : String
  title : String
  acknowledged : Bool

deriving Repr, DecidableEq

/-- A current-status record (one per lowercase component id). -/
structure StatusRecord where
  id : String
  name : String
  severity : String
  detail : String
  updatedAt : Int

deriving Repr, DecidableEq

/-- The parsed ingest request body `{component, severity, reason?, detail?,
updatedAt?}`.  A missing (or JS-falsy empty) mandatory field is modelled by
`""`; optional strings are `Option String` (`some ""` is still falsy);
`updatedAt` is `some n` when `Number(updatedAt)` is the finite `n`. -/
structure Report where
  component : String
  severity : String
  reason : Option String
  detail : Option String
  updatedAt : Option Int

deriving Repr, DecidableEq

/-! ### Verifier, server.js variant -/

/-- `verifyHmac` of `src/server.js` (lines 59–81): headers are strings with
`""` for an absent header (both are falsy under `!ts`); returns the
`{ok, reason}` pair of the source.  The `crypto.timingSafeEqual` call
throws on a length mismatch, which the surrounding `try/catch` converts to
`bad_signature`. -/
def verifyHmacJS (secret tsH nonceH sigH body : String) (now : Int) : Bool × String :=
  if tsH == "" || nonceH == "" || sigH == "" then (false, "missing_headers")
  else
    match jsNumber? tsH with
    | none => (false, "ts_out_of_window")
    | some tsNum =>
      if (now - tsNum).natAbs > 120000 then (false, "ts_out_of_window")
      else
        let expected := hmacHex secret (tsH ++ "." ++ nonceH ++ "." ++ body)
        let ba := bufferFromHex expected.data
        let bb := bufferFromHex sigH.data
        if ba.length ≠ bb.length then (false, "bad_signature")
        else if ba == bb then (true, "ok") else (false, "bad_signature")

/-! ### Verifier, part_000 variant -/

/-- `timingSafeEq` of `src/unnamed/part_000` (lines 34–43): hex-decode both
strings, reject on length mismatch, else constant-time byte comparison.
`Buffer.from(_, "hex")` never throws, so the `try/catch` adds nothing. -/
def timingSafeEq (a b : String) : Bool :=
  let ba := bufferFromHex a.data
  let bb := bufferFromHex b.data
  if ba.length ≠ bb.length then false else ba == bb

/-- `verifyHmac` of `src/unnamed/part_000` (lines 45–65): distinguishes
`missing_headers`, `bad_ts` (non-finite timestamp), `ts_skew` (outside the
±120000 ms window) and `bad_signature`.  Success is `.ok ()`. -/
def verifyHmacP0 (secret tsH nonceH sigH body : String) (now : Int) : Except String Unit :=
  if tsH == "" || nonceH == "" || sigH == "" then .error "missing_headers"
  else
    match jsNumber? tsH with
    | none => .error "bad_ts"
    | some tsNum =>
      if (now - tsNum).natAbs > 120000 then .error "ts_skew"
      else
        let expected := hmacHex secret (tsH ++ "." ++ nonceH ++ "." ++ body)
        if timingSafeEq expected sigH then .ok () else .error "bad_signature"

/-! ### Ingest, server.js variant -/

/-- Snapshot state of `src/server.js`: the `data` JSONB statuses plus the
`logs` table. -/
structure ServerState where
  statuses : List StatusRecord
  logs : List LogEntry
  generatedAt : Int

deriving Repr, DecidableEq

/-- `detail || (reason ? "Grund: " + reason : "—")` (server.js line 146). -/
def detailJS (r : Report) : String :=
  if truthyS r.detail then r.detail.getD ""
  else if truthyS r.reason then "Grund: " ++ r.reason.getD "" else "—"

/-- The title expression of server.js lines 152–155 with the parenthetical
reason of line 159. -/
def titleJS (r : Report) : String :=
  let base :=
    if r.severity == "ok" then r.component ++ " wieder OK"
    else if r.severity == "alarm" then r.component ++ " Ausfall"
    else r.component ++ " eingeschränkt"
  if truthyS r.reason then base ++ " (" ++ r.reason.getD "" ++ ")" else base

/-- The log row built by server.js lines 150–161 and stamped by `addLog`
with `Date.now()` (receipt time) and a fresh id. -/
def logEntryJS (r : Report) (fid : Nat) (now : Int) : LogEntry :=
  { id := fid, timestamp := now,
    type := if r.severity == "alarm" then "alarm"
            else if r.severity == "warning" then "warning" else "info",
    component := r.component, title := titleJS r,
    acknowledged := r.severity == "ok" }

/-- Newest-first order on log entries (`ORDER BY ts DESC`). -/
def tsGe (a b : LogEntry) : Prop := b.timestamp ≤ a.timestamp

instance : DecidableRel tsGe := fun a b =>
  inferInstanceAs (Decidable (b.timestamp ≤ a.timestamp))

instance : IsTotal LogEntry tsGe := ⟨fun a b => le_total b.timestamp a.timestamp⟩

instance : IsTrans LogEntry tsGe := ⟨fun _ _ _ hab hbc => le_trans hbc hab⟩

/-- `addLog` of `src/server.js` (lines 105–114): insert the row, then
delete every row whose id falls outside the first 200 of
`ORDER BY ts DESC`.  SQL row order is unspecified and every read re-sorts
by `ts DESC` (`getLogs`), so the table is modelled as the ts-descending
list; ids are UUIDs and hence unique. -/
def addLogJS (logs : List LogEntry) (e : LogEntry) : List LogEntry :=
  (List.insertionSort tsGe (e :: logs)).take 200

/-- Replace the first record with the given id (server.js mutates the
object returned by `find` in place). -/
def setFirst : List StatusRecord → String → StatusRecord → List StatusRecord
  | [], _, _ => []
  | x :: xs, i, st => if x.id == i then st :: xs else x :: setFirst xs i st

/-- The `POST /api/ingest` handler of `src/server.js` (lines 125–166),
after authentication: validate mandatory fields, find-or-create the status
record, compare the `severity|detail` fingerprint before and after the
update, and append a log entry (with retention) only when it changed.
`now` is `Date.now()` and `fid` the id `addLog` generates. -/
def ingestJS (s : ServerState) (now : Int) (fid : Nat) (r : Report) :
    Except String ServerState :=
  if r.component == "" || r.severity == "" then .error "missing_component_or_severity"
  else
    let i := toLowerJS r.component
    let found := s.statuses.find? (fun st => st.id == i)
    let st0 := found.getD
      { id := i, name := r.component, severity := "ok", detail := "—", updatedAt := now }
    let oldKey := st0.severity ++ "|" ++ st0.detail
    let st1 := { st0 with severity := r.severity, detail := detailJS r,
                          updatedAt := numOrJS r.updatedAt now }
    let newKey := st1.severity ++ "|" ++ st1.detail
    .ok { statuses := match found with
            | some _ => setFirst s.statuses i st1
            | none => s.statuses ++ [st1],
          logs := if newKey ≠ oldKey then addLogJS s.logs (logEntryJS r fid now)
                  else s.logs,
          generatedAt := now }

/-! ### Ingest and ack, part_000 variant -/

/-- Table state of `src/unnamed/part_000`: `statuses` and `logs` tables
plus the generator for the store-assigned log ids. -/
structure P0State where
  statuses : List StatusRecord
  logs : List LogEntry
  nextId : Nat

deriving Repr, DecidableEq

/-- `detail || reason || "-"` (part_000 line 159). -/
def detailP0 (r : Report) : String :=
  if truthyS r.detail then r.detail.getD ""
  else if truthyS r.reason then r.reason.getD "" else "-"

/-- `INSERT ... ON CONFLICT (id) DO UPDATE` on the `statuses` table:
replace the row with the conflicting primary key, else append. -/
def upsertStatus (l : List StatusRecord) (st : StatusRecord) : List StatusRecord :=
  if l.any (fun x => x.id == st.id) then
    l.map (fun x => if x.id == st.id then st else x)
  else l ++ [st]

/-- The log row inserted by part_000 lines 166–179: `type` is the raw
severity, the title is `component severity` with the parenthetical reason,
and `ts` is the reporter-derived timestamp. -/
def logEntryP0 (r : Report) (fid : Nat) (ts : Int) : LogEntry :=
  let title := r.component ++ " " ++ r.severity
  { id := fid, timestamp := ts, type := r.severity, component := r.component,
    title := if truthyS r.reason then title ++ " (" ++ r.reason.getD "" ++ ")" else title,
    acknowledged := r.severity == "ok" }

/-- The `POST /api/ingest` handler of `src/unnamed/part_000` (lines
133–186), after authentication: validate mandatory fields, compute
`ts = Number(updatedAt) || Date.now()`, upsert the status row, and
unconditionally insert a log row (no retention bound). -/
def ingestP0 (s : P0State) (now : Int) (r : Report) : Except String P0State :=
  if r.component == "" || r.severity == "" then .error "missing_fields"
  else
    let ts := numOrJS r.updatedAt now
    .ok { statuses := upsertStatus s.statuses
            { id := toLowerJS r.component, name := r.component,
              severity := r.severity, detail := detailP0 r, updatedAt := ts },
          logs := s.logs ++ [logEntryP0 r s.nextId ts],
          nextId := s.nextId + 1 }

/-- The row filter of the ack `UPDATE` (part_000 lines 195–199). -/
def ackable (logId : Nat) (e : LogEntry) : Bool :=
  e.id == logId && !e.acknowledged && (e.type == "warning" || e.type == "alarm")

/-- The effect of the ack `UPDATE` on the `logs` table: every matching row
gets `acknowledged = TRUE`. -/
def ackUpdate (logId : Nat) (logs : List LogEntry) : List LogEntry :=
  logs.map (fun e => if ackable logId e then { e with acknowledged := true } else e)

/-- The `POST /api/logs/:id/ack` handler of `src/unnamed/part_000` (lines
190–213): run the conditional `UPDATE`; if no row matched, answer
`not_ackable_or_not_found`, else return the first updated row.  The state
component is the table after the `UPDATE` (unchanged when nothing
matched). -/
def ackP0 (s : P0State) (logId : Nat) : Except String LogEntry × P0State :=
  match s.logs.find? (ackable logId) with
  | some e => (.ok { e with acknowledged := true }, { s with logs := ackUpdate logId s.logs })
  | none => (.error "not_ackable_or_not_found", { s with logs := ackUpdate logId s.logs })

deriving instance DecidableEq for Except

/-- The expected HMAC digest for the canonical payload `ts.nonce.body`. -/
def expectedMac (secret tsH nonceH body : String) : List Nat :=
  hmacSha256 (strBytes secret) (strBytes (tsH ++ "." ++ nonceH ++ "." ++ body))

/-- `n`-fold repetition of the same server.js ingest request. -/
def ingestNJS (s : ServerState) (now : Int) (fid : Nat) (r : Report) :
    Nat → Except String ServerState
  | 0 => .ok s
  | n + 1 =>
    match ingestNJS s now fid r n with
    | .ok s' => ingestJS s' now fid r
    | .error e => .error e

def exC1s : ServerState :=
  ⟨[⟨"web", "Web", "warning", "x", 1⟩], [⟨9, 3, "info", "c", "t", true⟩], 0⟩

def exC1r : Report := ⟨"Web", "warning", none, some "x", some 7⟩

def exC1st : StatusRecord := ⟨"web", "Web", "warning", "x", 1⟩

def exC1p : P0State := ⟨[⟨"web", "Web", "warning", "x", 1⟩], [], 0⟩

def exC2s : ServerState := ⟨[], [⟨1, 5, "info", "c", "t", true⟩], 0⟩

def exC2r : Report := ⟨"Web", "alarm", none, none, none⟩

def exC2sOut : ServerState :=
  ⟨[⟨"web", "Web", "alarm", "—", 10⟩],
   [⟨2, 10, "alarm", "Web", "Web Ausfall", false⟩, ⟨1, 5, "info", "c", "t", true⟩],
   10⟩

def exC2Logs : List LogEntry :=
  (List.range 200).map (fun i => ⟨i, (i : Int), "info", "c", "t", true⟩)

def exC2p : P0State := ⟨[], exC2Logs, 200⟩

def p0LogCount (e : Except String P0State) : Nat :=
  match e with
  | .ok s => s.logs.length
  | .error _ => 0

def exC6r : Report := ⟨"Web", "alarm", none, none, none⟩

def exC6s : ServerState := ⟨[], [], 0⟩

def exC6p : P0State := ⟨[], [], 0⟩

def exC6sOut : ServerState :=
  ⟨[⟨"web", "Web", "alarm", "—", 10⟩], [⟨0, 10, "alarm", "Web", "Web Ausfall", false⟩], 10⟩

def exC6pOut : P0State :=
  ⟨[⟨"web", "Web", "alarm", "-", 10⟩], [⟨0, 10, "alarm", "Web", "Web alarm", false⟩], 1⟩

def exC8r : Report := ⟨"Db", "warning", none, none, some 77⟩

def exC8sOut : ServerState :=
  ⟨[⟨"db", "Db", "warning", "—", 77⟩],
   [⟨0, 9, "warning", "Db", "Db eingeschränkt", false⟩], 9⟩

def exC8pOut : P0State :=
  ⟨[⟨"db", "Db", "warning", "-", 77⟩], [⟨0, 77, "warning", "Db", "Db warning", false⟩], 1⟩

def exC3s : P0State :=
  ⟨[], [⟨1, 5, "warning", "Web", "Web warning", false⟩,
        ⟨2, 6, "ok", "Web", "Web ok", true⟩], 3⟩

def exC10s : P0State :=
  ⟨[⟨"web", "Web", "warning", "x", 1⟩],
   [⟨1, 5, "alarm", "Web", "Web alarm", false⟩,
    ⟨2, 6, "info", "Db", "Db info", false⟩], 3⟩

/-! ### Lemmas and claim theorems -/

/-! ### Helper lemmas about ingest -/

/-- After a successful server.js ingest, the log table is either unchanged
or the result of `addLog` on the constructed entry. -/
lemma ingestJS_ok_logs {s : ServerState} {now : Int} {fid : Nat} {r : Report}
    {s' : ServerState} (h : ingestJS s now fid r = .ok s') :
    s'.logs = s.logs ∨ s'.logs = addLogJS s.logs (logEntryJS r fid now) := by
  simp only [ingestJS] at h
  split at h
  · exact Except.noConfusion h
  · injection h with h
    subst h
    by_cases hk :
        (r.severity ++ "|" ++ detailJS r
          ≠ ((s.statuses.find? (fun st => st.id == toLowerJS r.component)).getD
              { id := toLowerJS r.component, name := r.component, severity := "ok",
                detail := "—", updatedAt := now }).severity ++ "|"
            ++ ((s.statuses.find? (fun st => st.id == toLowerJS r.component)).getD
              { id := toLowerJS r.component, name := r.component, severity := "ok",
                detail := "—", updatedAt := now }).detail)
    · right; simp [hk]
    · left; simp [hk]

/-- A successful part_000 ingest appends exactly one log row built by
`logEntryP0` with the reporter-derived timestamp, and bumps the id
generator. -/
lemma ingestP0_ok {s : P0State} {now : Int} {r : Report} {s' : P0State}
    (h : ingestP0 s now r = .ok s') :
    s'.logs = s.logs ++ [logEntryP0 r s.nextId (numOrJS r.updatedAt now)]
    ∧ s'.nextId = s.nextId + 1 := by
  simp only [ingestP0] at h
  split at h
  · exact Except.noConfusion h
  · injection h with h
    subst h
    exact ⟨rfl, rfl⟩

/-- Core retention property of server.js `addLog`: at most 200 rows are
kept, every discarded row is no newer than every kept row, and nothing is
invented. -/
lemma addLogJS_spec (logs : List LogEntry) (e : LogEntry) :
    (addLogJS logs e).length = min (logs.length + 1) 200
    ∧ (∀ d ∈ e :: logs, d ∉ addLogJS logs e →
        ∀ k ∈ addLogJS logs e, d.timestamp ≤ k.timestamp)
    ∧ (∀ k ∈ addLogJS logs e, k ∈ e :: logs) := by
  unfold addLogJS
  have hperm := List.perm_insertionSort tsGe (e :: logs)
  have hsort : List.Pairwise tsGe (List.insertionSort tsGe (e :: logs)) :=
    List.sorted_insertionSort tsGe (e :: logs)
  refine ⟨?_, ?_, ?_⟩
  · rw [List.length_take, List.length_insertionSort]
    simp [Nat.min_comm]
  · intro d hd hnot k hk
    have hd' : d ∈ List.insertionSort tsGe (e :: logs) := hperm.mem_iff.mpr hd
    have hsplit := List.take_append_drop 200 (List.insertionSort tsGe (e :: logs))
    have hmem : d ∈ (List.insertionSort tsGe (e :: logs)).take 200
        ∨ d ∈ (List.insertionSort tsGe (e :: logs)).drop 200 := by
      rw [← hsplit] at hd'
      exact List.mem_append.mp hd'
    rcases hmem with hmem | hmem
    · exact absurd hmem hnot
    · have hp : List.Pairwise tsGe
          ((List.insertionSort tsGe (e :: logs)).take 200
            ++ (List.insertionSort tsGe (e :: logs)).drop 200) := by
        rw [hsplit]; exact hsort
      exact (List.pairwise_append.mp hp).2.2 k hk d hmem
  · intro k hk
    exact hperm.mem_iff.mp (List.mem_of_mem_take hk)

/-! ### Helper lemmas about the verifier -/

/-- Every byte SHA-256 produces is below 256. -/
lemma sha256_bytes_lt (msg : List Nat) : ∀ b ∈ sha256 msg, b < 256 := by
  intro b hb
  unfold sha256 at hb
  rcases List.mem_flatten.mp hb with ⟨l, hl, hbl⟩
  rcases List.mem_map.mp hl with ⟨w, _, rfl⟩
  unfold word32Bytes at hbl
  simp only [List.mem_cons, List.not_mem_nil, or_false] at hbl
  rcases hbl with rfl | rfl | rfl | rfl <;> exact Nat.mod_lt _ (by omega)

/-- Hex digits decode back to their value. -/
lemma hexVal?_hexDigit : ∀ d, d < 16 → hexVal? (hexDigit d) = some d := by decide

/-- Node's hex decoding is a left inverse of lowercase hex encoding on
byte lists. -/
lemma bufferFromHex_hexOfBytes (bs : List Nat) (h : ∀ b ∈ bs, b < 256) :
    bufferFromHex (hexOfBytes bs).data = bs := by
  induction bs with
  | nil => rfl
  | cons b rest ih =>
    have hb : b < 256 := h b (List.mem_cons_self b rest)
    have hrest : ∀ x ∈ rest, x < 256 := fun x hx => h x (List.mem_cons_of_mem b hx)
    have hhi : b / 16 < 16 := by omega
    have hlo : b % 16 < 16 := Nat.mod_lt _ (by omega)
    show bufferFromHex
        (hexDigit (b / 16) :: hexDigit (b % 16)
          :: ((rest.map (fun x => [hexDigit (x / 16), hexDigit (x % 16)])).flatten)) = _
    rw [bufferFromHex, hexVal?_hexDigit _ hhi, hexVal?_hexDigit _ hlo]
    show (16 * (b / 16) + b % 16) :: bufferFromHex _ = b :: rest
    rw [Nat.div_add_mod b 16]
    exact congrArg (b :: ·) (ih hrest)

lemma hmacSha256_bytes_lt (key msg : List Nat) : ∀ b ∈ hmacSha256 key msg, b < 256 := by
  simp only [hmacSha256]
  exact sha256_bytes_lt _

/-- The part_000 comparison succeeds exactly when the supplied signature
hex-decodes (under Node's lenient decoding) to the digest bytes. -/
lemma timingSafeEq_iff (secret tsH nonceH body sig : String) :
    timingSafeEq (hmacHex secret (tsH ++ "." ++ nonceH ++ "." ++ body)) sig = true
    ↔ bufferFromHex sig.data = expectedMac secret tsH nonceH body := by
  unfold timingSafeEq hmacHex
  rw [bufferFromHex_hexOfBytes _ (hmacSha256_bytes_lt _ _)]
  constructor
  · intro h
    simp only [ne_eq] at h
    split at h
    · exact Bool.noConfusion h
    · exact (beq_iff_eq.mp h).symm
  · intro h
    rw [h]
    simp [expectedMac]

/-- Full case analysis of the part_000 verifier once all three headers are
present. -/
lemma verifyP0_cases (secret tsH nonceH sigH body : String) (now : Int)
    (h1 : tsH ≠ "") (h2 : nonceH ≠ "") (h3 : sigH ≠ "") :
    (jsNumber? tsH = none →
      verifyHmacP0 secret tsH nonceH sigH body now = .error "bad_ts")
    ∧ (∀ T, jsNumber? tsH = some T →
        ((now - T).natAbs > 120000 →
          verifyHmacP0 secret tsH nonceH sigH body now = .error "ts_skew")
        ∧ ((now - T).natAbs ≤ 120000 →
            (bufferFromHex sigH.data = expectedMac secret tsH nonceH body →
              verifyHmacP0 secret tsH nonceH sigH body now = .ok ())
            ∧ (bufferFromHex sigH.data ≠ expectedMac secret tsH nonceH body →
              verifyHmacP0 secret tsH nonceH sigH body now = .error "bad_signature"))) := by
  have hg : (tsH == "" || nonceH == "" || sigH == "") = false := by
    simp [h1, h2, h3]
  refine ⟨?_, ?_⟩
  · intro hn
    simp [verifyHmacP0, hg, hn]
  · intro T hT
    refine ⟨?_, ?_⟩
    · intro hskew
      simp [verifyHmacP0, hg, hT, hskew]
    · intro hskew
      have hsk' : ¬ ((now - T).natAbs > 120000) := by omega
      refine ⟨?_, ?_⟩
      · intro heq
        have ht := (timingSafeEq_iff secret tsH nonceH body sigH).mpr heq
        simp [verifyHmacP0, hg, hT, hsk', ht]
      · intro hne
        have ht : timingSafeEq (hmacHex secret (tsH ++ "." ++ nonceH ++ "." ++ body)) sigH
            = false := by
          rcases hb : timingSafeEq (hmacHex secret (tsH ++ "." ++ nonceH ++ "." ++ body)) sigH
          · rfl
          · exact absurd ((timingSafeEq_iff secret tsH nonceH body sigH).mp hb) hne
        simp [verifyHmacP0, hg, hT, hsk', ht]

/-- `find?` after replacing the found record still finds the replacement. -/
lemma find?_setFirst {l : List StatusRecord} {i : String} {st0 : StatusRecord}
    (st1 : StatusRecord)
    (h : l.find? (fun st => st.id == i) = some st0) (h1 : st1.id = i) :
    (setFirst l i st1).find? (fun st => st.id == i) = some st1 := by
  induction l with
  | nil => exact absurd h (by simp)
  | cons x xs ih =>
    by_cases hx : (x.id == i) = true
    · rw [setFirst, if_pos hx]
      exact List.find?_cons_of_pos _ (by simp [h1])
    · rw [setFirst, if_neg hx]
      rw [List.find?_cons_of_neg _ (by simp_all)] at h
      rw [List.find?_cons_of_neg _ (by simp_all)]
      exact ih h

/-- A report repeating the current record's `(severity, detail)` pair makes
the server.js ingest update the status record but leave the log table
untouched: the post-update fingerprint equals the pre-update one. -/
lemma ingestJS_silent_step (now : Int) (fid : Nat) {s : ServerState} {r : Report}
    {st0 : StatusRecord}
    (hc : r.component ≠ "") (hs : r.severity ≠ "")
    (hfind : s.statuses.find? (fun st => st.id == toLowerJS r.component) = some st0)
    (hsev : st0.severity = r.severity) (hdet : r.detail = some st0.detail)
    (hne : st0.detail ≠ "") :
    ingestJS s now fid r
      = .ok ⟨setFirst s.statuses (toLowerJS r.component)
               { st0 with severity := r.severity, detail := st0.detail,
                          updatedAt := numOrJS r.updatedAt now },
             s.logs, now⟩ := by
  have hg : (r.component == "" || r.severity == "") = false := by simp [hc, hs]
  have hdJS : detailJS r = st0.detail := by
    simp [detailJS, truthyS, hdet, hne]
  simp [ingestJS, hg, hfind, hdJS, hsev]

/-- C1: corrected.  In the retention-bounded variant (`src/server.js`), any
number of repetitions of a report whose `(severity, detail)` pair equals
the current record's pre-update pair persists the StatusRecord but appends
no LogEntry.  (The part_000 variant appends a LogEntry on every ingest;
see the counterexample.) -/
theorem C1_amended_theorem (s : ServerState) (now : Int) (fid : Nat) (r : Report)
    (st0 : StatusRecord)
    (hc : r.component ≠ "") (hs : r.severity ≠ "")
    (hfind : s.statuses.find? (fun st => st.id == toLowerJS r.component) = some st0)
    (hsev : st0.severity = r.severity) (hdet : r.detail = some st0.detail)
    (hne : st0.detail ≠ "") :
    ∀ n : Nat, ∃ s' : ServerState,
      ingestNJS s now fid r n = .ok s' ∧ s'.logs = s.logs := by
  suffices h : ∀ n, ∃ s' st',
      ingestNJS s now fid r n = .ok s' ∧ s'.logs = s.logs
      ∧ s'.statuses.find? (fun st => st.id == toLowerJS r.component) = some st'
      ∧ st'.severity = r.severity ∧ st'.detail = st0.detail by
    intro n
    obtain ⟨s', _, h1, h2, _⟩ := h n
    exact ⟨s', h1, h2⟩
  intro n
  induction n with
  | zero => exact ⟨s, st0, rfl, rfl, hfind, hsev, rfl⟩
  | succ n ih =>
    obtain ⟨s', st', hrun, hlogs, hfind', hsev', hdetEq⟩ := ih
    have hdet' : r.detail = some st'.detail := by rw [hdetEq]; exact hdet
    have hne' : st'.detail ≠ "" := by rw [hdetEq]; exact hne
    have hid : st'.id = toLowerJS r.component := by
      have := List.find?_some hfind'
      simpa using this
    have hstep := ingestJS_silent_step now fid hc hs hfind' hsev' hdet' hne'
    refine ⟨⟨setFirst s'.statuses (toLowerJS r.component)
               { st' with severity := r.severity, detail := st'.detail,
                          updatedAt := numOrJS r.updatedAt now },
             s'.logs, now⟩,
            { st' with severity := r.severity, detail := st'.detail,
                       updatedAt := numOrJS r.updatedAt now }, ?_, ?_, ?_, rfl, hdetEq⟩
    · show ingestNJS s now fid r (n + 1) = _
      rw [ingestNJS, hrun]
      exact hstep
    · exact hlogs
    · exact find?_setFirst _ hfind' hid

/-- Witness for `C1_amended_theorem` at a concrete state, report and
repetition count 3. -/
theorem C1_witness :
    exC1s.statuses.find? (fun st => st.id == toLowerJS exC1r.component) = some exC1st
    ∧ exC1st.severity = exC1r.severity ∧ exC1r.detail = some exC1st.detail
    ∧ ∃ s', ingestNJS exC1s 100 5 exC1r 3 = .ok s' ∧ s'.logs = exC1s.logs :=
  ⟨by decide, by decide, by decide,
   C1_amended_theorem exC1s 100 5 exC1r exC1st (by decide) (by decide) (by decide)
     (by decide) (by decide) (by decide) 3⟩

/-- C1 counterexample: in the part_000 variant a report repeating the
current record's `(severity, detail)` pair still appends a LogEntry. -/
theorem C1_counterexample :
    exC1p.statuses.find? (fun st => st.id == toLowerJS exC1r.component)
      = some ⟨"web", "Web", "warning", "x", 1⟩
    ∧ exC1r.severity = "warning" ∧ exC1r.detail = some "x"
    ∧ exC1p.logs.length = 0
    ∧ ingestP0 exC1p 100 exC1r
        = .ok ⟨[⟨"web", "Web", "warning", "x", 7⟩],
               [⟨0, 7, "warning", "Web", "Web warning", false⟩], 1⟩ := by
  refine ⟨by decide, by decide, by decide, by decide, by decide⟩

/-- C2: corrected.  In the retention-bounded variant (`src/server.js`),
after every completed ingest from a state holding at most 200 log rows, at
most 200 rows remain and every discarded row is no newer (by timestamp)
than every retained row.  (The part_000 variant enforces no retention
bound; see the counterexample.) -/
theorem C2_amended_theorem (s : ServerState) (now : Int) (fid : Nat) (r : Report)
    (s' : ServerState) (h : ingestJS s now fid r = .ok s')
    (hlen : s.logs.length ≤ 200) :
    s'.logs.length ≤ 200
    ∧ ∀ d ∈ s.logs, d ∉ s'.logs → ∀ k ∈ s'.logs, d.timestamp ≤ k.timestamp := by
  rcases ingestJS_ok_logs h with hlogs | hlogs
  · rw [hlogs]
    exact ⟨hlen, fun d hd hnot _ _ => absurd hd hnot⟩
  · rw [hlogs]
    obtain ⟨h1, h2, _⟩ := addLogJS_spec s.logs (logEntryJS r fid now)
    constructor
    · omega
    · intro d hd hnot k hk
      exact h2 d (List.mem_cons_of_mem _ hd) hnot k hk

/-- Witness for `C2_amended_theorem` at a concrete ingest that appends a
log entry. -/
theorem C2_witness :
    ingestJS exC2s 10 2 exC2r = .ok exC2sOut
    ∧ exC2s.logs.length ≤ 200
    ∧ exC2sOut.logs.length ≤ 200 := by
  have h : ingestJS exC2s 10 2 exC2r = .ok exC2sOut := by decide
  exact ⟨h, by decide, (C2_amended_theorem exC2s 10 2 exC2r exC2sOut h (by decide)).1⟩

set_option maxRecDepth 100000 in
/-- C2 counterexample: the part_000 ingest retains 201 log rows after an
ingest from a 200-row state — no retention bound is enforced. -/
theorem C2_counterexample :
    exC2p.logs.length = 200 ∧ p0LogCount (ingestP0 exC2p 1000 exC2r) = 201 := by
  constructor
  · decide
  · decide

/-- C6: corrected.  In the retention-bounded variant the log type is
`alarm`/`warning` with fallback `info`; in the part_000 variant the log
type is the reported severity string verbatim (so `ok` and unrecognized
severities are stored as-is, not as `info`). -/
theorem C6_amended_theorem (s : ServerState) (p : P0State) (now : Int) (fid : Nat)
    (r : Report) (s' : ServerState) (p' : P0State)
    (hJS : ingestJS s now fid r = .ok s') (hP0 : ingestP0 p now r = .ok p') :
    (s'.logs = s.logs ∨ s'.logs = addLogJS s.logs (logEntryJS r fid now))
    ∧ (logEntryJS r fid now).type
        = (if r.severity = "alarm" then "alarm"
           else if r.severity = "warning" then "warning" else "info")
    ∧ p'.logs = p.logs ++ [logEntryP0 r p.nextId (numOrJS r.updatedAt now)]
    ∧ (logEntryP0 r p.nextId (numOrJS r.updatedAt now)).type = r.severity := by
  refine ⟨ingestJS_ok_logs hJS, ?_, (ingestP0_ok hP0).1, rfl⟩
  simp only [logEntryJS]
  by_cases h1 : r.severity = "alarm" <;> by_cases h2 : r.severity = "warning" <;>
    simp_all

/-- Witness for `C6_amended_theorem` at a concrete alarm report. -/
theorem C6_witness :
    ingestJS exC6s 10 0 exC6r = .ok exC6sOut ∧ ingestP0 exC6p 10 exC6r = .ok exC6pOut
    ∧ (logEntryJS exC6r 0 10).type = "alarm"
    ∧ (logEntryP0 exC6r 0 (numOrJS exC6r.updatedAt 10)).type = exC6r.severity := by
  have h1 : ingestJS exC6s 10 0 exC6r = .ok exC6sOut := by decide
  have h2 : ingestP0 exC6p 10 exC6r = .ok exC6pOut := by decide
  have h := C6_amended_theorem exC6s exC6p 10 0 exC6r exC6sOut exC6pOut h1 h2
  exact ⟨h1, h2, by simpa using h.2.1, h.2.2.2⟩

/-- C6 counterexample: in the part_000 variant a severity-`ok` report
produces a LogEntry whose type is `"ok"`, not `"info"`. -/
theorem C6_counterexample :
    ingestP0 ⟨[], [], 0⟩ 50 ⟨"Web", "ok", none, none, some 5⟩
      = .ok ⟨[⟨"web", "Web", "ok", "-", 5⟩], [⟨0, 5, "ok", "Web", "Web ok", true⟩], 1⟩
    ∧ ("ok" : String) ≠ "info" := by
  exact ⟨by decide, by decide⟩

/-- C8: corrected.  In the retention-bounded variant every created
LogEntry's timestamp is the receipt time (`Date.now()` in `addLog`);
in the part_000 variant it is `Number(updatedAt) || Date.now()`, which
falls back to receipt time not only when `updatedAt` is absent but also
when it is non-numeric or the (falsy) number `0`. -/
theorem C8_amended_theorem (s : ServerState) (p : P0State) (now : Int) (fid : Nat)
    (r : Report) (s' : ServerState) (p' : P0State)
    (hJS : ingestJS s now fid r = .ok s') (hP0 : ingestP0 p now r = .ok p') :
    (s'.logs = s.logs ∨ s'.logs = addLogJS s.logs (logEntryJS r fid now))
    ∧ (logEntryJS r fid now).timestamp = now
    ∧ p'.logs = p.logs ++ [logEntryP0 r p.nextId (numOrJS r.updatedAt now)]
    ∧ (logEntryP0 r p.nextId (numOrJS r.updatedAt now)).timestamp
        = numOrJS r.updatedAt now
    ∧ (∀ z : Int, z ≠ 0 → numOrJS (some z) now = z)
    ∧ numOrJS (some 0) now = now ∧ numOrJS none now = now := by
  refine ⟨ingestJS_ok_logs hJS, rfl, (ingestP0_ok hP0).1, rfl, ?_, rfl, rfl⟩
  intro z hz
  simp [numOrJS, hz]

/-- Witness for `C8_amended_theorem`: the server.js log gets the receipt
time 9, the part_000 log gets the reporter-supplied 77. -/
theorem C8_witness :
    ingestJS ⟨[], [], 0⟩ 9 0 exC8r = .ok exC8sOut
    ∧ ingestP0 ⟨[], [], 0⟩ 9 exC8r = .ok exC8pOut
    ∧ (logEntryJS exC8r 0 9).timestamp = 9
    ∧ numOrJS exC8r.updatedAt 9 = 77 := by
  have h1 : ingestJS ⟨[], [], 0⟩ 9 0 exC8r = .ok exC8sOut := by decide
  have h2 : ingestP0 ⟨[], [], 0⟩ 9 exC8r = .ok exC8pOut := by decide
  have h := C8_amended_theorem ⟨[], [], 0⟩ ⟨[], [], 0⟩ 9 0 exC8r exC8sOut exC8pOut h1 h2
  exact ⟨h1, h2, h.2.1, by decide⟩

/-- C8 counterexample: a supplied `updatedAt = 0` is falsy, so the
part_000 log timestamp falls back to the receipt time 5555 even though the
reporter supplied a value. -/
theorem C8_counterexample :
    (⟨"Web", "alarm", none, none, some 0⟩ : Report).updatedAt = some 0
    ∧ ingestP0 ⟨[], [], 0⟩ 5555 ⟨"Web", "alarm", none, none, some 0⟩
        = .ok ⟨[⟨"web", "Web", "alarm", "-", 5555⟩],
               [⟨0, 5555, "alarm", "Web", "Web alarm", false⟩], 1⟩
    ∧ (5555 : Int) ≠ 0 := by
  exact ⟨by decide, by decide, by decide⟩

/-- C9: confirmed.  In the retention-bounded variant, the first report for
an unknown component with severity `ok`, no detail and no reason creates
the StatusRecord with the default fingerprint `(ok, —)` and appends no
LogEntry, because the post-update fingerprint equals the creation
default. -/
theorem C9_theorem (s : ServerState) (now : Int) (fid : Nat) (name : String)
    (hn : name ≠ "")
    (habs : s.statuses.find? (fun st => st.id == toLowerJS name) = none) :
    ingestJS s now fid ⟨name, "ok", none, none, none⟩
      = .ok ⟨s.statuses ++ [⟨toLowerJS name, name, "ok", "—", now⟩], s.logs, now⟩ := by
  have hg : (name == "" || ("ok" : String) == "") = false := by simp [hn]
  simp [ingestJS, hg, habs, detailJS, truthyS, numOrJS, hn]

/-- Witness for `C9_theorem` at a concrete fresh component. -/
theorem C9_witness :
    ("Router" : String) ≠ ""
    ∧ (⟨[], [⟨4, 2, "info", "c", "t", true⟩], 0⟩ : ServerState).statuses.find?
        (fun st => st.id == toLowerJS "Router") = none
    ∧ ingestJS ⟨[], [⟨4, 2, "info", "c", "t", true⟩], 0⟩ 33 9 ⟨"Router", "ok", none, none, none⟩
        = .ok ⟨[⟨"router", "Router", "ok", "—", 33⟩], [⟨4, 2, "info", "c", "t", true⟩], 33⟩ :=
  ⟨by decide, by decide,
   C9_theorem ⟨[], [⟨4, 2, "info", "c", "t", true⟩], 0⟩ 33 9 "Router" (by decide) (by decide)⟩

/-! ### Helper lemmas about the ack operation -/

/-- The ack row filter in propositional form. -/
lemma ackable_iff (logId : Nat) (e : LogEntry) :
    ackable logId e = true
    ↔ e.id = logId ∧ e.acknowledged = false
        ∧ (e.type = "warning" ∨ e.type = "alarm") := by
  simp [ackable, and_assoc]

/-- The ack `UPDATE` touches nothing when no row matches. -/
lemma ack_map_noop {logId : Nat} {logs : List LogEntry}
    (h : ∀ e ∈ logs, ackable logId e = false) :
    ackUpdate logId logs = logs := by
  induction logs with
  | nil => rfl
  | cons x xs ih =>
    have hx := h x (List.mem_cons_self x xs)
    simp only [ackUpdate, List.map_cons]
    rw [if_neg (by simp [hx])]
    have ih' := ih (fun e he => h e (List.mem_cons_of_mem x he))
    simp only [ackUpdate] at ih'
    rw [ih']

/-- When no row matches, the ack handler leaves the state unchanged. -/
lemma ackP0_none_state {s : P0State} {logId : Nat}
    (h : s.logs.find? (ackable logId) = none) : (ackP0 s logId).2 = s := by
  have hall : ∀ e ∈ s.logs, ackable logId e = false := fun e he => by
    simpa using List.find?_eq_none.mp h e he
  simp only [ackP0, h]
  rw [ack_map_noop hall]

/-- After the ack `UPDATE` ran, no row of the updated table matches the
filter any more (each previously matching row is now acknowledged). -/
lemma ackable_false_after {logId : Nat} {logs : List LogEntry} :
    ∀ x ∈ ackUpdate logId logs, ackable logId x = false := by
  simp only [ackUpdate]
  intro x' hx'
  rcases List.mem_map.mp hx' with ⟨x, _, rfl⟩
  by_cases hx : ackable logId x = true
  · rw [if_pos hx]
    simp [ackable]
  · rw [if_neg (by simp [hx])]
    simpa using hx

/-- Evaluation of the ack handler when no row matches. -/
lemma ackP0_none_eq {s : P0State} {logId : Nat}
    (h : s.logs.find? (ackable logId) = none) :
    ackP0 s logId = (.error "not_ackable_or_not_found",
                     { s with logs := ackUpdate logId s.logs }) := by
  simp [ackP0, h]

/-- Evaluation of the ack handler when a row matches. -/
lemma ackP0_some_eq {s : P0State} {logId : Nat} {e : LogEntry}
    (h : s.logs.find? (ackable logId) = some e) :
    ackP0 s logId = (.ok { e with acknowledged := true },
                     { s with logs := ackUpdate logId s.logs }) := by
  simp [ackP0, h]

/-- C3: confirmed.  `acknowledge(logId)` succeeds iff an entry with that id
exists, unacknowledged, of type `warning` or `alarm`; on success it sets
`acknowledged := true` and returns the updated entry; every failure is the
single error `not_ackable_or_not_found`; a second acknowledgment of the
same entry fails with that same error and leaves the state unchanged. -/
theorem C3_theorem (s : P0State) (logId : Nat) :
    ((ackP0 s logId).1.isOk = true
      ↔ ∃ e ∈ s.logs, e.id = logId ∧ e.acknowledged = false
          ∧ (e.type = "warning" ∨ e.type = "alarm"))
    ∧ (∀ msg, (ackP0 s logId).1 = .error msg → msg = "not_ackable_or_not_found")
    ∧ (∀ e', (ackP0 s logId).1 = .ok e' →
        e'.id = logId ∧ e'.acknowledged = true ∧ e' ∈ (ackP0 s logId).2.logs
        ∧ (ackP0 (ackP0 s logId).2 logId).1 = .error "not_ackable_or_not_found"
        ∧ (ackP0 (ackP0 s logId).2 logId).2 = (ackP0 s logId).2)
    ∧ ((ackP0 s logId).1.isOk = false → (ackP0 s logId).2 = s) := by
  cases hfind : s.logs.find? (ackable logId) with
  | none =>
    have hres : (ackP0 s logId).1 = .error "not_ackable_or_not_found" := by
      simp [ackP0, hfind]
    have hstate : (ackP0 s logId).2 = s := ackP0_none_state hfind
    refine ⟨?_, ?_, ?_, fun _ => hstate⟩
    · rw [hres]
      constructor
      · intro h
        exact Bool.noConfusion h
      · rintro ⟨e, he, hid, hack, hty⟩
        exact absurd ((ackable_iff logId e).mpr ⟨hid, hack, hty⟩)
          (List.find?_eq_none.mp hfind e he)
    · intro msg h
      rw [hres] at h
      injection h with h
      exact h.symm
    · intro e' h
      rw [hres] at h
      exact Except.noConfusion h
  | some e =>
    have hmem := List.mem_of_find?_eq_some hfind
    have hpe : ackable logId e = true := List.find?_some hfind
    obtain ⟨hid, hack, hty⟩ := (ackable_iff logId e).mp hpe
    have hres : (ackP0 s logId).1 = .ok { e with acknowledged := true } := by
      simp [ackP0, hfind]
    have hstate : (ackP0 s logId).2 = { s with logs := ackUpdate logId s.logs } := by
      simp [ackP0, hfind]
    refine ⟨?_, ?_, ?_, ?_⟩
    · rw [hres]
      exact ⟨fun _ => ⟨e, hmem, hid, hack, hty⟩, fun _ => rfl⟩
    · intro msg h
      rw [hres] at h
      exact Except.noConfusion h
    · intro e' h
      rw [hres] at h
      injection h with h
      subst h
      have hfind2 : ((ackP0 s logId).2).logs.find? (ackable logId) = none := by
        rw [hstate]
        exact List.find?_eq_none.mpr (fun x hx => by simp [ackable_false_after x hx])
      refine ⟨hid, rfl, ?_, ?_, ackP0_none_state hfind2⟩
      · rw [hstate]
        show _ ∈ ackUpdate logId s.logs
        refine List.mem_map.mpr ⟨e, hmem, ?_⟩
        simp [hpe]
      · rw [ackP0_none_eq hfind2]
    · intro h
      rw [hres] at h
      exact Bool.noConfusion h

/-- Witness for `C3_theorem`: acknowledging entry 1 of a concrete state
succeeds, and the inner implications are discharged at that input. -/
theorem C3_witness :
    (ackP0 exC3s 1).1 = .ok ⟨1, 5, "warning", "Web", "Web warning", true⟩
    ∧ (⟨1, 5, "warning", "Web", "Web warning", true⟩ : LogEntry).acknowledged = true
    ∧ (ackP0 (ackP0 exC3s 1).2 1).1 = .error "not_ackable_or_not_found" := by
  have h : (ackP0 exC3s 1).1 = .ok ⟨1, 5, "warning", "Web", "Web warning", true⟩ := by
    decide
  have hc := (C3_theorem exC3s 1).2.2.1 ⟨1, 5, "warning", "Web", "Web warning", true⟩ h
  exact ⟨h, hc.2.1, hc.2.2.2.1⟩

/-- C10: confirmed.  A successful acknowledgment changes only the
`acknowledged` flag of the single entry with the targeted id: the returned
entry keeps its id, timestamp, type, component and title; every other log
row is untouched (and keeps its position); no status record changes. -/
theorem C10_theorem (s : P0State) (logId : Nat) (e' : LogEntry) (s' : P0State)
    (hnd : (s.logs.map LogEntry.id).Nodup) (h : ackP0 s logId = (.ok e', s')) :
    s'.statuses = s.statuses ∧ s'.nextId = s.nextId
    ∧ s'.logs = s.logs.map
        (fun x => if x.id = logId then { x with acknowledged := true } else x)
    ∧ (∀ x ∈ s.logs, x.id ≠ logId → x ∈ s'.logs)
    ∧ ∃ e, e ∈ s.logs ∧ e.id = logId ∧ e'.id = e.id ∧ e'.timestamp = e.timestamp
        ∧ e'.type = e.type ∧ e'.component = e.component ∧ e'.title = e.title
        ∧ e'.acknowledged = true := by
  cases hfind : s.logs.find? (ackable logId) with
  | none =>
    rw [ackP0_none_eq hfind] at h
    exact absurd (congrArg Prod.fst h) (by simp)
  | some e =>
    rw [ackP0_some_eq hfind] at h
    have h1 := congrArg Prod.fst h
    have h2 := congrArg Prod.snd h
    simp only at h1 h2
    injection h1 with h1
    subst h1
    subst h2
    have hmem := List.mem_of_find?_eq_some hfind
    have hpe : ackable logId e = true := List.find?_some hfind
    have hid : e.id = logId := ((ackable_iff logId e).mp hpe).1
    have hmap : ackUpdate logId s.logs = s.logs.map
        (fun x => if x.id = logId then { x with acknowledged := true } else x) := by
      apply List.map_congr_left
      intro x hx
      by_cases hxid : x.id = logId
      · have hxe : x = e :=
          List.inj_on_of_nodup_map hnd hx hmem (by rw [hxid, hid])
        subst hxe
        rw [if_pos hpe, if_pos hxid]
      · have hfalse : ackable logId x = false := by
          simp [ackable, hxid]
        rw [if_neg (by simp [hfalse]), if_neg hxid]
    refine ⟨rfl, rfl, hmap, ?_, e, hmem, hid, rfl, rfl, rfl, rfl, rfl, rfl⟩
    intro x hx hne
    show x ∈ ackUpdate logId s.logs
    rw [hmap]
    exact List.mem_map.mpr ⟨x, hx, if_neg hne⟩

/-- Witness for `C10_theorem`: acknowledging entry 1 leaves the statuses,
the id generator, and the unrelated entry 2 unchanged. -/
theorem C10_witness :
    ackP0 exC10s 1
      = (.ok ⟨1, 5, "alarm", "Web", "Web alarm", true⟩,
         ⟨[⟨"web", "Web", "warning", "x", 1⟩],
          [⟨1, 5, "alarm", "Web", "Web alarm", true⟩,
           ⟨2, 6, "info", "Db", "Db info", false⟩], 3⟩)
    ∧ (⟨[⟨"web", "Web", "warning", "x", 1⟩],
        [⟨1, 5, "alarm", "Web", "Web alarm", true⟩,
         ⟨2, 6, "info", "Db", "Db info", false⟩], 3⟩ : P0State).statuses
        = exC10s.statuses := by
  have hnd : (exC10s.logs.map LogEntry.id).Nodup := by decide
  have h : ackP0 exC10s 1
      = (.ok ⟨1, 5, "alarm", "Web", "Web alarm", true⟩,
         ⟨[⟨"web", "Web", "warning", "x", 1⟩],
          [⟨1, 5, "alarm", "Web", "Web alarm", true⟩,
           ⟨2, 6, "info", "Db", "Db info", false⟩], 3⟩) := by decide
  exact ⟨h, (C10_theorem exC10s 1 _ _ hnd h).1⟩

/-- The part_000 verifier is total: every input yields success or one of
the four designed error codes. -/
lemma verifyP0_total (sec ts non sig bod : String) (n : Int) :
    verifyHmacP0 sec ts non sig bod n = .ok ()
    ∨ verifyHmacP0 sec ts non sig bod n = .error "missing_headers"
    ∨ verifyHmacP0 sec ts non sig bod n = .error "bad_ts"
    ∨ verifyHmacP0 sec ts non sig bod n = .error "ts_skew"
    ∨ verifyHmacP0 sec ts non sig bod n = .error "bad_signature" := by
  unfold verifyHmacP0
  split
  · simp
  · split
    · simp
    · split
      · simp
      · by_cases ht :
            timingSafeEq (hmacHex sec (ts ++ "." ++ non ++ "." ++ bod)) sig = true <;>
          simp [ht]

/-- C4: corrected.  With all headers present and a parsing timestamp, the
part_000 verifier accepts exactly when the supplied signature hex-decodes
(under Node's lenient, case-insensitive, prefix-truncating decoding) to
the HMAC-SHA256 digest of `ts.nonce.body` and the timestamp is within the
120000 ms window; outside the window it fails with `ts_skew`.  Consequently
any change to body, timestamp or nonce that changes the digest makes
verification fail — but strings other than the canonical lowercase hex
encoding of the digest also verify (see the counterexample). -/
theorem C4_amended_theorem (secret tsH nonceH sigH body : String) (now T : Int)
    (h1 : tsH ≠ "") (h2 : nonceH ≠ "") (h3 : sigH ≠ "")
    (hts : jsNumber? tsH = some T) :
    (verifyHmacP0 secret tsH nonceH sigH body now = .ok ()
      ↔ (bufferFromHex sigH.data = expectedMac secret tsH nonceH body
          ∧ (now - T).natAbs ≤ 120000))
    ∧ ((now - T).natAbs > 120000 →
        verifyHmacP0 secret tsH nonceH sigH body now = .error "ts_skew") := by
  obtain ⟨-, hsome⟩ := verifyP0_cases secret tsH nonceH sigH body now h1 h2 h3
  obtain ⟨hskew, hwin⟩ := hsome T hts
  refine ⟨⟨?_, ?_⟩, hskew⟩
  · intro hok
    by_cases hs : (now - T).natAbs ≤ 120000
    · obtain ⟨hyes, hno⟩ := hwin hs
      by_cases hd : bufferFromHex sigH.data = expectedMac secret tsH nonceH body
      · exact ⟨hd, hs⟩
      · rw [hno hd] at hok
        exact Except.noConfusion hok
    · rw [hskew (by omega)] at hok
      exact Except.noConfusion hok
  · rintro ⟨hd, hs⟩
    exact ((hwin hs).1) hd

set_option maxRecDepth 100000 in
/-- Witness for `C4_amended_theorem`: the canonical lowercase signature
verifies inside the window and fails with `ts_skew` outside it. -/
theorem C4_witness :
    jsNumber? "1000" = some 1000
    ∧ verifyHmacP0 "change-me" "1000" "n1"
        "59d23fb00c35ca312a773ab5d3461037f4cf1ac644d44e576f964c6091cf38dd" "body" 2000
        = .ok ()
    ∧ verifyHmacP0 "change-me" "1000" "n1"
        "59d23fb00c35ca312a773ab5d3461037f4cf1ac644d44e576f964c6091cf38dd" "body" 200000
        = .error "ts_skew" := by
  have hts : jsNumber? "1000" = some 1000 := by decide
  have ha := C4_amended_theorem "change-me" "1000" "n1"
    "59d23fb00c35ca312a773ab5d3461037f4cf1ac644d44e576f964c6091cf38dd" "body" 2000 1000
    (by decide) (by decide) (by decide) hts
  have hb := C4_amended_theorem "change-me" "1000" "n1"
    "59d23fb00c35ca312a773ab5d3461037f4cf1ac644d44e576f964c6091cf38dd" "body" 200000 1000
    (by decide) (by decide) (by decide) hts
  refine ⟨hts, ha.1.mpr ⟨by decide, by decide⟩, hb.2 (by decide)⟩

set_option maxRecDepth 100000 in
/-- C4 counterexample: an all-uppercase signature string is not the
hex-encoded digest, yet it verifies, because Node's hex decoding is
case-insensitive — the "verifies only if it equals the hex-encoded HMAC"
direction of the claim is false. -/
theorem C4_counterexample :
    verifyHmacP0 "change-me" "1000" "n1"
        "59D23FB00C35CA312A773AB5D3461037F4CF1AC644D44E576F964C6091CF38DD" "body" 2000
      = .ok ()
    ∧ hmacHex "change-me" ("1000" ++ "." ++ "n1" ++ "." ++ "body")
        = "59d23fb00c35ca312a773ab5d3461037f4cf1ac644d44e576f964c6091cf38dd"
    ∧ ("59D23FB00C35CA312A773AB5D3461037F4CF1AC644D44E576F964C6091CF38DD" : String)
        ≠ "59d23fb00c35ca312a773ab5d3461037f4cf1ac644d44e576f964c6091cf38dd"
    ∧ ((2000 : Int) - 1000).natAbs ≤ 120000 := by
  exact ⟨by decide, by decide, by decide, by decide⟩

/-- C5: corrected.  The verifier is total — every input, however
malformed, yields one of the designed results rather than an escaping
exception — and with valid headers and timestamp any signature whose
lenient hex decoding differs from the digest yields `bad_signature`
(likewise in the server.js variant, where the length mismatch that would
make `timingSafeEqual` throw is caught and mapped to `bad_signature`).
However a malformed signature whose decoded prefix equals the digest is
accepted, not rejected as `BadSignature` (see the counterexample). -/
theorem C5_amended_theorem (secret tsH nonceH sigH body : String) (now T : Int)
    (h1 : tsH ≠ "") (h2 : nonceH ≠ "") (h3 : sigH ≠ "")
    (hts : jsNumber? tsH = some T) (hsk : (now - T).natAbs ≤ 120000)
    (hbad : bufferFromHex sigH.data ≠ expectedMac secret tsH nonceH body) :
    (∀ sec ts non sig bod : String, ∀ n : Int,
        verifyHmacP0 sec ts non sig bod n = .ok ()
        ∨ verifyHmacP0 sec ts non sig bod n = .error "missing_headers"
        ∨ verifyHmacP0 sec ts non sig bod n = .error "bad_ts"
        ∨ verifyHmacP0 sec ts non sig bod n = .error "ts_skew"
        ∨ verifyHmacP0 sec ts non sig bod n = .error "bad_signature")
    ∧ verifyHmacP0 secret tsH nonceH sigH body now = .error "bad_signature" := by
  obtain ⟨-, hsome⟩ := verifyP0_cases secret tsH nonceH sigH body now h1 h2 h3
  exact ⟨verifyP0_total, ((hsome T hts).2 hsk).2 hbad⟩

set_option maxRecDepth 100000 in
/-- Witness for `C5_amended_theorem`: a short undecodable signature is
reported as `bad_signature`, not a crash. -/
theorem C5_witness :
    jsNumber? "1000" = some 1000
    ∧ bufferFromHex ("00" : String).data ≠ expectedMac "change-me" "1000" "n1" "body"
    ∧ verifyHmacP0 "change-me" "1000" "n1" "00" "body" 2000 = .error "bad_signature" := by
  have hts : jsNumber? "1000" = some 1000 := by decide
  have hbad : bufferFromHex ("00" : String).data
      ≠ expectedMac "change-me" "1000" "n1" "body" := by decide
  exact ⟨hts, hbad,
    ( C5_amended_theorem "change-me" "1000" "n1" "00" "body" 2000 1000
      (by decide) (by decide) (by decide) hts (by decide) hbad).2⟩

set_option maxRecDepth 100000 in
/-- C5 counterexample: a 66-character signature with a non-hex tail is
malformed and of the wrong length, yet it is accepted rather than rejected
as `bad_signature`, because Node's hex decoder silently truncates at the
first invalid character. -/
theorem C5_counterexample :
    verifyHmacP0 "change-me" "2000" "n2"
        "74ee94af5865b5526b7e56f20a822596c12376a218b68d95d7aca1f07dd3d8f3zz" "x" 3000
      = .ok ()
    ∧ ("74ee94af5865b5526b7e56f20a822596c12376a218b68d95d7aca1f07dd3d8f3zz" : String).length
        = 66
    ∧ hexVal? 'z' = none := by
  exact ⟨by decide, by decide, by decide⟩

/-- C7: corrected.  The part_000 verifier distinguishes the two timestamp
failures (`bad_ts` for a non-parsing header, `ts_skew` outside the
freshness window), but the server.js variant collapses both into the
single error `ts_out_of_window` (see the counterexample). -/
theorem C7_amended_theorem (secret tsH nonceH sigH body : String) (now : Int)
    (h1 : tsH ≠ "") (h2 : nonceH ≠ "") (h3 : sigH ≠ "") :
    (jsNumber? tsH = none →
      verifyHmacP0 secret tsH nonceH sigH body now = .error "bad_ts")
    ∧ (∀ T, jsNumber? tsH = some T → (now - T).natAbs > 120000 →
        verifyHmacP0 secret tsH nonceH sigH body now = .error "ts_skew") := by
  obtain ⟨hnone, hsome⟩ := verifyP0_cases secret tsH nonceH sigH body now h1 h2 h3
  exact ⟨hnone, fun T hT hs => (hsome T hT).1 hs⟩

/-- Witness for `C7_amended_theorem`: a non-numeric `x-ts` header yields
`bad_ts`, and a stale timestamp yields `ts_skew`. -/
theorem C7_witness :
    jsNumber? "abc" = none
    ∧ verifyHmacP0 "change-me" "abc" "n" "00" "b" 5 = .error "bad_ts"
    ∧ verifyHmacP0 "change-me" "1000" "n" "00" "b" 999999999 = .error "ts_skew" := by
  refine ⟨by decide, ?_, ?_⟩
  · exact ( C7_amended_theorem "change-me" "abc" "n" "00" "b" 5
      (by decide) (by decide) (by decide)).1 (by decide)
  · exact ( C7_amended_theorem "change-me" "1000" "n" "00" "b" 999999999
      (by decide) (by decide) (by decide)).2 1000 (by decide) (by decide)

/-- C7 counterexample: the server.js verifier returns the same error
`ts_out_of_window` both for a non-parsing timestamp header and for a
timestamp outside the window — it has no distinct `BadTimestamp` error. -/
theorem C7_counterexample :
    verifyHmacJS "change-me" "abc" "n" "00" "b" 1000 = (false, "ts_out_of_window")
    ∧ jsNumber? "abc" = none
    ∧ verifyHmacJS "change-me" "1000" "n" "00" "b" 999999999
        = (false, "ts_out_of_window")
    ∧ jsNumber? "1000" = some 1000
    ∧ ((999999999 : Int) - 1000).natAbs > 120000 := by
  exact ⟨by decide, by decide, by decide, by decide, by decide⟩
